import Mathlib

/-!
Verification of the LC-MS peak/target-compound identification core
(`lcms_identification.py`) against its specification.

The numerical pipeline is embedded shallowly over `ℚ` (the source uses
IEEE float64; the claims under study are about exact arithmetic
relationships, tolerance comparisons and orderings, which `ℚ` models
exactly).  Nullable columns (`retention_time`, `retention_time_tolerance`),
which the source represents as floating NaN and tests with `np.isnan`, are
modelled as `Option ℚ`.  Tables are Lean lists, rows identified by index,
mirroring the dataframe row indices of the source.
-/

namespace Lcms

/-- One observed LC-MS peak: one row of the experimental peak table
(CSV columns `mz`, `rt`, `intensity`). -/
structure ExperimentalPeak where
  mz : ℚ
  retentionTime : ℚ
  intensity : ℚ
deriving DecidableEq

/-- One reference compound: one row of the `compoundlist` table
(columns `compound_id`, `compound`, `mass_to_charge_ratio`,
`retention_time`, `retention_time_tolerance`; the last two nullable). -/
structure TargetCompound where
  compoundId : ℤ
  name : String
  mz : ℚ
  retentionTime : Option ℚ
  retentionTimeTolerance : Option ℚ
deriving DecidableEq

/-- The two tolerance parameters of `MSpeak_target_compound_identification`. -/
structure Config where
  massTolerance : ℚ
  defaultRetimeTolerance : ℚ
deriving DecidableEq

/-- Default peak used to totalise list indexing (the source only indexes
in-range, guarded by the match construction). -/
def defaultPeak : ExperimentalPeak := ⟨0, 0, 0⟩

/-- Default target used to totalise list indexing. -/
def defaultTarget : TargetCompound := ⟨0, "", 0, none, none⟩

/-- Per-target retention-time tolerance: the target's own
`retention_time_tolerance` when present, else the configured default
(source lines 79-84: `tolerance['retime'][np.isnan(...)] = default_retime_tolerance`). -/
def retimeTolerance (cfg : Config) (t : TargetCompound) : ℚ :=
  t.retentionTimeTolerance.getD cfg.defaultRetimeTolerance

/-- mz-connectivity of one (peak, target) pair: cell of
`connection_map_based_on('m/z')` (source lines 33-34),
`|peak.mz - target.mz| < massTolerance`, strict. -/
def mzConnected (cfg : Config) (p : ExperimentalPeak) (t : TargetCompound) : Bool :=
  |p.mz - t.mz| < cfg.massTolerance

/-- Retention-time connectivity of one (peak, target) pair: cell of
`connection_map['retime']` after the NaN-bypass of source line 94
(`connection_map['retime'] | np.isnan(distance_map('retime'))`).
A null target retention time makes the distance NaN, hence the pair
retime-connected unconditionally; otherwise the strict tolerance test
of lines 33-34 applies with the per-target tolerance. -/
def retimeConnected (cfg : Config) (p : ExperimentalPeak) (t : TargetCompound) : Bool :=
  match t.retentionTime with
  | none => true
  | some r => |p.retentionTime - r| < retimeTolerance cfg t

/-- A (peak, target) pair is a match iff both connectivity maps hold
(source line 97: `connection_map['m/z'] & connection_map['retime']`). -/
def connected (cfg : Config) (p : ExperimentalPeak) (t : TargetCompound) : Bool :=
  mzConnected cfg p t && retimeConnected cfg p t

/-- `peak_target_matches` (source line 97): the list of matched
(peakIndex, targetIndex) pairs, in the row-major order produced by
`np.where` on the peaks × targets boolean matrix. -/
def matchEdges (cfg : Config) (peaks : List ExperimentalPeak)
    (targets : List TargetCompound) : List (Nat × Nat) :=
  (List.range peaks.length).flatMap fun i =>
    (List.range targets.length).filterMap fun j =>
      if connected cfg (peaks.getD i defaultPeak) (targets.getD j defaultTarget)
      then some (i, j) else none

/-- The peak indices matched to a given target, in ascending order
(the rows of `peak_target_matches` whose second column equals the target). -/
def matchedPeaks (edges : List (Nat × Nat)) (t : Nat) : List Nat :=
  (edges.filter fun e => e.2 == t).map Prod.fst

/-- `peaks_ids` (source line 37).  The source selects the rows of
`peak_target_matches` for the target, flattens the k×2 subarray and takes
element `[0]`: the result is the FIRST matched peak index only, a scalar
(not the full index list).  Embedded faithfully as the head of the matched
peak list (defaulted, the source only calls this for identified targets,
whose list is nonempty). -/
def peaks_ids (edges : List (Nat × Nat)) (t : Nat) : Nat :=
  (matchedPeaks edges t).headD 0

/-- `target_intensities` (source lines 39-40): the intensity of
`peaks_ids(target)` — by the `[0]` selection, a single scalar intensity. -/
def target_intensities (peaks : List ExperimentalPeak) (edges : List (Nat × Nat))
    (t : Nat) : ℚ :=
  (peaks.getD (peaks_ids edges t) defaultPeak).intensity

/-- `average_over_peaks` (source lines 42-44):
`np.sum(value*intensities/np.sum(intensities))`.  Both arguments are the
scalars produced by the `peaks_ids` selection, so this reduces to
`value * intensities / intensities`. -/
def average_over_peaks (value intensities : ℚ) : ℚ :=
  value * intensities / intensities

/-- `experimental_value_of_target` (source lines 46-47): the quantity of
the first matched peak, passed through `average_over_peaks`. -/
def experimental_value_of_target (peaks : List ExperimentalPeak)
    (edges : List (Nat × Nat)) (q : ExperimentalPeak → ℚ) (t : Nat) : ℚ :=
  average_over_peaks (q (peaks.getD (peaks_ids edges t) defaultPeak))
    (target_intensities peaks edges t)

/-- Grand total intensity over the whole experimental peak table
(`np.sum(experimental['intensities'])`, source line 104). -/
def grandTotal (peaks : List ExperimentalPeak) : ℚ :=
  (peaks.map (·.intensity)).sum

/-- One entry of `total_intensities` after normalization (source lines
103-104): `np.sum(target_intensities(t)) / np.sum(intensities) * 1e6`.
`target_intensities` is a scalar (first matched peak), so its `np.sum`
is itself. -/
def total_intensity_ppm (peaks : List ExperimentalPeak)
    (edges : List (Nat × Nat)) (t : Nat) : ℚ :=
  target_intensities peaks edges t / grandTotal peaks * 1000000

/-- `identified_targets` (source line 100): `np.unique` of the target
column of `peak_target_matches` — the ascending list of target indices
with at least one matched peak. -/
def identifiedTargets (edges : List (Nat × Nat)) (nTargets : Nat) : List Nat :=
  (List.range nTargets).filter fun t => !(matchedPeaks edges t).isEmpty

/-- `experimental_error_of_target` for quantity `m/z` (source lines 49-54):
first matched peak's absolute mz error, converted to ppm of the target mz,
through `average_over_peaks`. -/
def experimental_error_mz (peaks : List ExperimentalPeak)
    (targets : List TargetCompound) (edges : List (Nat × Nat)) (t : Nat) : ℚ :=
  let tc := targets.getD t defaultTarget
  average_over_peaks
    (|(peaks.getD (peaks_ids edges t) defaultPeak).mz - tc.mz| * 1000000 / tc.mz)
    (target_intensities peaks edges t)

/-- `experimental_error_of_target` for quantity `retime` (source lines
49-54): absolute retention-time error of the first matched peak.  When the
target's retention time is null the source computes NaN; modelled as
`none`. -/
def experimental_error_retime (peaks : List ExperimentalPeak)
    (targets : List TargetCompound) (edges : List (Nat × Nat)) (t : Nat) : Option ℚ :=
  (targets.getD t defaultTarget).retentionTime.map fun r =>
    average_over_peaks
      (|(peaks.getD (peaks_ids edges t) defaultPeak).retentionTime - r|)
      (target_intensities peaks edges t)

/-- `np.round` to the nearest integer: IEEE round-half-to-even, as numpy
documents and implements. -/
def roundHalfToEven (q : ℚ) : ℤ :=
  let f : ℤ := ⌊q⌋
  let r : ℚ := q - f
  if r < 1/2 then f
  else if 1/2 < r then f + 1
  else if 2 ∣ f then f else f + 1

/-- `np.round(x, 2)`: round-half-to-even at two decimal places. -/
def round2dp (q : ℚ) : ℚ :=
  (roundHalfToEven (q * 100) : ℚ) / 100

/-- One row of `identified_targets_database` (source lines 117-126),
with the dataframe row label (the target index, shown by the viewer as
the hidden `index` column) and the presentation-rounded columns. -/
structure IdentifiedRow where
  targetIndex : Nat
  compoundId : ℤ
  compoundName : String
  totalIntensityPpm : ℤ
  mzDa : ℚ
  mzErrorPpm : ℤ
  retTimeMin : ℚ
  retTimeErrorMin : Option ℚ
  peakCount : Nat
deriving DecidableEq

/-- The output row built for one identified target (source lines 117-126):
columns `Compound ID`, `Compound name`, `Total intensity (ppm)` (rounded
to integer), `m/z (Da)` (rounded 2dp), `m/z error (ppm)` (rounded to
integer), `Ret. time (min)` (2dp), `Ret. time error (min)` (2dp),
`Peaks within tolerance` (the `np.unique` count of matched peaks). -/
def mkRow (peaks : List ExperimentalPeak) (targets : List TargetCompound)
    (edges : List (Nat × Nat)) (t : Nat) : IdentifiedRow :=
  let tc := targets.getD t defaultTarget
  { targetIndex := t
  , compoundId := tc.compoundId
  , compoundName := tc.name
  , totalIntensityPpm := roundHalfToEven (total_intensity_ppm peaks edges t)
  , mzDa := round2dp (experimental_value_of_target peaks edges (·.mz) t)
  , mzErrorPpm := roundHalfToEven (experimental_error_mz peaks targets edges t)
  , retTimeMin := round2dp (experimental_value_of_target peaks edges (·.retentionTime) t)
  , retTimeErrorMin := (experimental_error_retime peaks targets edges t).map round2dp
  , peakCount := (matchedPeaks edges t).length }

/-- The rows of `identified_targets_database` before sorting, in the
`identified_targets` order (ascending target index). -/
def identifiedRows (cfg : Config) (peaks : List ExperimentalPeak)
    (targets : List TargetCompound) : List IdentifiedRow :=
  let edges := matchEdges cfg peaks targets
  (identifiedTargets edges targets.length).map (mkRow peaks targets edges)

/-- The comparison used to model
`sort_values('Total intensity (ppm)', ascending=False)` (source line 128):
rounded `Total intensity (ppm)` descending.  pandas computes an ascending
argsort of the key column and reverses it, so the program guarantees only
the descending key order; the relative order of rows with EQUAL keys is
not guaranteed in general (numpy's default argsort is an unstable introsort
above its small-array insertion-sort threshold).  The tie case here
(descending target index, what the reversed argsort produces while numpy
stays in its stable insertion-sort regime, e.g. on two-row tables) is one
concrete deterministic refinement of that unspecified tie order: theorems
quantifying over all inputs rely only on the tie-agnostic descending-key
property, and concrete evaluations are confined to tables small enough for
the refinement to be exact.  `rowLe a b` says row `a` may precede row `b`. -/
def rowLe (a b : IdentifiedRow) : Prop :=
  b.totalIntensityPpm < a.totalIntensityPpm ∨
    (a.totalIntensityPpm = b.totalIntensityPpm ∧ b.targetIndex ≤ a.targetIndex)

instance : DecidableRel rowLe := fun a b => by
  unfold rowLe; infer_instance

instance : IsTotal IdentifiedRow rowLe :=
  ⟨fun a b => by
    unfold rowLe
    rcases lt_trichotomy a.totalIntensityPpm b.totalIntensityPpm with h | h | h
    · exact Or.inr (Or.inl h)
    · rcases Nat.le_total b.targetIndex a.targetIndex with h2 | h2
      · exact Or.inl (Or.inr ⟨h, h2⟩)
      · exact Or.inr (Or.inr ⟨h.symm, h2⟩)
    · exact Or.inl (Or.inl h)⟩

instance : IsTrans IdentifiedRow rowLe :=
  ⟨fun a b c hab hbc => by
    unfold rowLe at *
    rcases hab with h1 | ⟨h1, h1i⟩ <;> rcases hbc with h2 | ⟨h2, h2i⟩
    · exact Or.inl (h2.trans h1)
    · exact Or.inl (h2 ▸ h1)
    · exact Or.inl (h1 ▸ h2)
    · exact Or.inr ⟨h2 ▸ h1, h2i.trans h1i⟩⟩

/-- The final output table (source lines 117-130): the identified-target
rows sorted by the rounded `Total intensity (ppm)` column in descending
order.  The tie order among equal keys is the `rowLe` refinement; see its
doc comment for what the program does and does not guarantee there. -/
def outputRows (cfg : Config) (peaks : List ExperimentalPeak)
    (targets : List TargetCompound) : List IdentifiedRow :=
  List.insertionSort rowLe (identifiedRows cfg peaks targets)

/-- `MSpeak_target_compound_identification` (source line 13): the analysis
entry point, taking the two default tolerances as its third and fourth
parameters (in that order), producing the output table. -/
def MSpeak_target_compound_identification (peaks : List ExperimentalPeak)
    (targets : List TargetCompound)
    (default_mass_tolerance default_retime_tolerance : ℚ) : List IdentifiedRow :=
  outputRows ⟨default_mass_tolerance, default_retime_tolerance⟩ peaks targets

/-- The tolerance-related CLI arguments of the `__main__` block:
`--mass-tolerance` (default 0.002) and `--time-tolerance` (default 0.5),
source lines 221-222. -/
structure CliArgs where
  mass_tolerance : ℚ
  time_tolerance : ℚ
deriving DecidableEq

/-- The tolerance configuration that the `generate` action passes to the
analysis.  Source line 232 calls
`MSpeak_target_compound_identification(..., default_retime_tolerance=args.mass_tolerance,
default_mass_tolerance=args.time_tolerance)`: the mass tolerance used is
the `--time-tolerance` argument and the default retention-time tolerance
is the `--mass-tolerance` argument. -/
def generateConfig (args : CliArgs) : Config :=
  { massTolerance := args.time_tolerance
  , defaultRetimeTolerance := args.mass_tolerance }

/-- The output table produced by the CLI `generate` action (source lines
230-232). -/
def main_generate (args : CliArgs) (peaks : List ExperimentalPeak)
    (targets : List TargetCompound) : List IdentifiedRow :=
  MSpeak_target_compound_identification peaks targets
    args.time_tolerance args.mass_tolerance

/-- Following the spec's words (§4.2 step 3), for comparison with the
source's `experimental_value_of_target`: the intensity-weighted average
of a per-peak quantity over ALL peaks matched to the target,
`Σ q(p)·intensity(p) / Σ intensity(p)` over `p ∈ P(t)`. -/
def spec_weighted_average (peaks : List ExperimentalPeak)
    (edges : List (Nat × Nat)) (q : ExperimentalPeak → ℚ) (t : Nat) : ℚ :=
  ((matchedPeaks edges t).map fun p =>
      q (peaks.getD p defaultPeak) * (peaks.getD p defaultPeak).intensity).sum /
  ((matchedPeaks edges t).map fun p => (peaks.getD p defaultPeak).intensity).sum

/-- Following the spec's words (§4.2 step 5), for comparison with the
source's `total_intensity_ppm`: the sum of the intensities of ALL peaks
matched to the target, divided by the grand total intensity, times 1e6. -/
def spec_total_intensity_ppm (peaks : List ExperimentalPeak)
    (edges : List (Nat × Nat)) (t : Nat) : ℚ :=
  ((matchedPeaks edges t).map fun p => (peaks.getD p defaultPeak).intensity).sum /
    grandTotal peaks * 1000000

/-- Sum of the full-precision normalized total intensities over all
identified targets (the pre-rounding `total_intensities` of source
line 104, summed). -/
def sumTotalIntensityPpm (cfg : Config) (peaks : List ExperimentalPeak)
    (targets : List TargetCompound) : ℚ :=
  ((identifiedTargets (matchEdges cfg peaks targets) targets.length).map
    (total_intensity_ppm peaks (matchEdges cfg peaks targets))).sum

/-!
Concrete input tables used to evaluate the pipeline at specific points.
-/

/-- Tolerances: mass window 0.005 Da, default retention window 0.5 min. -/
def ex1cfg : Config := ⟨0.005, 0.5⟩

/-- Two peaks, (mz, rt, intensity) = (100.000, 1, 10) and (100.004, 1, 30). -/
def ex1peaks : List ExperimentalPeak := [⟨100, 1, 10⟩, ⟨100.004, 1, 30⟩]

/-- One target at mz 100.002 with unconstrained retention time; both
`ex1peaks` fall inside its mass window. -/
def ex1targets : List TargetCompound := [⟨1, "A", 100.002, none, none⟩]

/-- Tolerances: mass window 0.005 Da, default retention window 0.5 min. -/
def ex3cfg : Config := ⟨0.005, 0.5⟩

/-- A single peak of intensity 10. -/
def ex3peaks : List ExperimentalPeak := [⟨100, 1, 10⟩]

/-- Two targets whose mass windows both contain the single `ex3peaks`
peak (double match). -/
def ex3targets : List TargetCompound :=
  [⟨1, "A", 100, none, none⟩, ⟨2, "B", 100.001, none, none⟩]

/-- Default tolerances (0.002 Da, 0.5 min). -/
def ex6cfg : Config := ⟨0.002, 0.5⟩

/-- A peak table whose every intensity is zero (grand total zero). -/
def ex6peaks : List ExperimentalPeak := [⟨100, 1, 0⟩]

/-- One target matching the zero-intensity peak. -/
def ex6targets : List TargetCompound := [⟨1, "A", 100, none, none⟩]

/-- Default tolerances (0.002 Da, 0.5 min). -/
def ex7cfg : Config := ⟨0.002, 0.5⟩

/-- Two peaks of equal intensity 5 at well-separated masses. -/
def ex7peaks : List ExperimentalPeak := [⟨100, 1, 5⟩, ⟨200, 1, 5⟩]

/-- Two targets, each matching exactly one of `ex7peaks`; both end up
with the same total intensity (tie). -/
def ex7targets : List TargetCompound :=
  [⟨1, "A", 100, none, none⟩, ⟨2, "B", 200, none, none⟩]

/-- Default tolerances (0.002 Da, 0.5 min). -/
def exBcfg : Config := ⟨0.002, 0.5⟩

/-- One peak exactly at the mass-tolerance boundary of the `exBtargets`
target: |100.002 - 100| = 0.002 = massTolerance. -/
def exBpeaks : List ExperimentalPeak := [⟨100.002, 1, 5⟩]

/-- One target with unconstrained retention time. -/
def exBtargets : List TargetCompound := [⟨1, "A", 100, none, none⟩]

/-!
General lemmas about the embedded pipeline.
-/

/-- Membership in an `if`-guarded `Option` forces the guarded value. -/
theorem eq_of_mem_if_some {α : Type} {c : Prop} [Decidable c] {x b : α}
    (h : b ∈ if c then some x else none) : b = x := by
  split at h
  · simpa using h.symm
  · simp at h

/-- Characterization of the match list: `(i, j)` is an edge iff both
indices are in range and the pair is connected. -/
theorem mem_matchEdges {cfg : Config} {peaks : List ExperimentalPeak}
    {targets : List TargetCompound} {i j : Nat} :
    (i, j) ∈ matchEdges cfg peaks targets ↔
      i < peaks.length ∧ j < targets.length ∧
        connected cfg (peaks.getD i defaultPeak) (targets.getD j defaultTarget) = true := by
  constructor
  · intro h
    simp only [matchEdges, List.mem_flatMap, List.mem_filterMap, List.mem_range] at h
    obtain ⟨a, ha, b, hb, hab⟩ := h
    have hx := eq_of_mem_if_some (Option.mem_def.mpr hab)
    obtain ⟨rfl, rfl⟩ : a = i ∧ b = j := by
      constructor <;> [exact congrArg Prod.fst hx.symm; exact congrArg Prod.snd hx.symm]
    refine ⟨ha, hb, ?_⟩
    by_contra hc
    rw [if_neg hc] at hab
    exact Option.noConfusion hab
  · rintro ⟨hi, hj, hc⟩
    simp only [matchEdges, List.mem_flatMap, List.mem_filterMap, List.mem_range]
    exact ⟨i, hi, j, hj, by rw [if_pos hc]⟩

/-- A peak is in a target's matched-peak list iff the corresponding
edge exists. -/
theorem mem_matchedPeaks {edges : List (Nat × Nat)} {p t : Nat} :
    p ∈ matchedPeaks edges t ↔ (p, t) ∈ edges := by
  simp only [matchedPeaks, List.mem_map, List.mem_filter]
  constructor
  · rintro ⟨⟨a, b⟩, ⟨he, het⟩, rfl⟩
    have hb : b = t := by simpa using het
    simpa [hb] using he
  · intro h
    exact ⟨(p, t), ⟨h, by simp⟩, rfl⟩

/-- The edge list contains no duplicate pairs. -/
theorem nodup_matchEdges (cfg : Config) (peaks : List ExperimentalPeak)
    (targets : List TargetCompound) : (matchEdges cfg peaks targets).Nodup := by
  unfold matchEdges
  rw [List.nodup_flatMap]
  constructor
  · intro i _
    refine List.Nodup.filterMap ?_ (List.nodup_range _)
    intro a a' b hb hb'
    have h1 := eq_of_mem_if_some hb
    have h2 := eq_of_mem_if_some hb'
    have : (i, a) = ((i, a') : Nat × Nat) := h1 ▸ h2 ▸ rfl
    exact (congrArg Prod.snd this)
  · refine (List.pairwise_lt_range _).imp ?_
    intro i i' hlt
    intro b hbi hbi'
    have h1 : b.1 = i := by
      obtain ⟨a, _, ha⟩ := List.mem_filterMap.mp hbi
      exact congrArg Prod.fst (eq_of_mem_if_some (Option.mem_def.mpr ha))
    have h2 : b.1 = i' := by
      obtain ⟨a, _, ha⟩ := List.mem_filterMap.mp hbi'
      exact congrArg Prod.fst (eq_of_mem_if_some (Option.mem_def.mpr ha))
    exact absurd (h1 ▸ h2) (Nat.ne_of_lt hlt)

/-- For a duplicate-free edge list, each target's matched-peak list is
duplicate-free (each matched peak is counted once). -/
theorem nodup_matchedPeaks {edges : List (Nat × Nat)} (h : edges.Nodup)
    (t : Nat) : (matchedPeaks edges t).Nodup := by
  unfold matchedPeaks
  refine List.Nodup.map_on ?_ (h.filter _)
  rintro ⟨a, b⟩ hx ⟨a', b'⟩ hy (hf : a = a')
  have hb : b = t := by simpa using (List.mem_filter.mp hx).2
  have hb' : b' = t := by simpa using (List.mem_filter.mp hy).2
  simp [hf, hb, hb']

/-- Membership in the identified-target list. -/
theorem mem_identifiedTargets {edges : List (Nat × Nat)} {n t : Nat} :
    t ∈ identifiedTargets edges n ↔ t < n ∧ matchedPeaks edges t ≠ [] := by
  simp [identifiedTargets, List.mem_filter]

/-- The identified-target list is duplicate-free. -/
theorem nodup_identifiedTargets (edges : List (Nat × Nat)) (n : Nat) :
    (identifiedTargets edges n).Nodup :=
  (List.nodup_range n).filter _

/-- For an identified target, the first matched peak really is matched
to it. -/
theorem peaks_ids_mem {edges : List (Nat × Nat)} {t : Nat}
    (h : matchedPeaks edges t ≠ []) : (peaks_ids edges t, t) ∈ edges := by
  refine mem_matchedPeaks.mp ?_
  unfold peaks_ids
  cases hm : matchedPeaks edges t with
  | nil => exact absurd hm h
  | cons a l => simp

/-- The grand total intensity as a sum over row indices. -/
theorem grandTotal_eq_sum_range (peaks : List ExperimentalPeak) :
    grandTotal peaks
      = ∑ i in Finset.range peaks.length, (peaks.getD i defaultPeak).intensity := by
  induction peaks with
  | nil => simp [grandTotal]
  | cons a l ih =>
      have h1 : grandTotal (a :: l) = a.intensity + grandTotal l := by
        simp [grandTotal]
      rw [h1, ih, List.length_cons, Finset.sum_range_succ']
      simp [add_comm]

/-!
Evaluation of the match list on the concrete inputs.
-/

/-- The edges found on `ex1`: both peaks match the single target. -/
theorem ex1_edges : matchEdges ex1cfg ex1peaks ex1targets = [(0, 0), (1, 0)] := by
  norm_num [matchEdges, connected, mzConnected, retimeConnected, retimeTolerance,
    ex1cfg, ex1peaks, ex1targets, List.range_succ, List.filterMap_cons, List.getD,
    abs_lt, defaultPeak, defaultTarget]

/-- The edges found on `ex3`: the single peak matches both targets. -/
theorem ex3_edges : matchEdges ex3cfg ex3peaks ex3targets = [(0, 0), (0, 1)] := by
  norm_num [matchEdges, connected, mzConnected, retimeConnected, retimeTolerance,
    ex3cfg, ex3peaks, ex3targets, List.range_succ, List.filterMap_cons, List.getD,
    abs_lt, defaultPeak, defaultTarget]

/-- The edges found on `ex6`: the zero-intensity peak matches the target. -/
theorem ex6_edges : matchEdges ex6cfg ex6peaks ex6targets = [(0, 0)] := by
  norm_num [matchEdges, connected, mzConnected, retimeConnected, retimeTolerance,
    ex6cfg, ex6peaks, ex6targets, List.range_succ, List.filterMap_cons, List.getD,
    abs_lt, defaultPeak, defaultTarget]

/-- The edges found on `ex7`: each peak matches its own target. -/
theorem ex7_edges : matchEdges ex7cfg ex7peaks ex7targets = [(0, 0), (1, 1)] := by
  norm_num [matchEdges, connected, mzConnected, retimeConnected, retimeTolerance,
    ex7cfg, ex7peaks, ex7targets, List.range_succ, List.filterMap_cons, List.getD,
    abs_lt, defaultPeak, defaultTarget]

/-- The edges found on `exB`: the boundary-distance pair does not match. -/
theorem exB_edges : matchEdges exBcfg exBpeaks exBtargets = [] := by
  norm_num [matchEdges, connected, mzConnected, retimeConnected, retimeTolerance,
    exBcfg, exBpeaks, exBtargets, List.range_succ, List.filterMap_cons, List.getD,
    abs_lt, defaultPeak, defaultTarget]

/-!
Claim theorems.
-/

/-- C4: a (peak, target) pair is mz-connected iff `|peak.mz - target.mz|`
is strictly less than `massTolerance`; a pair at distance exactly
`massTolerance` is not a match, while a pair at distance strictly below
the tolerance that is also retime-connected is a match. -/
theorem c4_mass_tolerance_strict (cfg : Config) (peaks : List ExperimentalPeak)
    (targets : List TargetCompound) (i j : Nat)
    (hi : i < peaks.length) (hj : j < targets.length) :
    (mzConnected cfg (peaks.getD i defaultPeak) (targets.getD j defaultTarget) = true
      ↔ |(peaks.getD i defaultPeak).mz - (targets.getD j defaultTarget).mz|
          < cfg.massTolerance)
    ∧ (|(peaks.getD i defaultPeak).mz - (targets.getD j defaultTarget).mz|
          = cfg.massTolerance
        → (i, j) ∉ matchEdges cfg peaks targets)
    ∧ (|(peaks.getD i defaultPeak).mz - (targets.getD j defaultTarget).mz|
          < cfg.massTolerance
        → retimeConnected cfg (peaks.getD i defaultPeak) (targets.getD j defaultTarget)
            = true
        → (i, j) ∈ matchEdges cfg peaks targets) := by
  refine ⟨by simp [mzConnected], ?_, ?_⟩
  · intro heq hmem
    obtain ⟨-, -, hc⟩ := mem_matchEdges.mp hmem
    have hmz : mzConnected cfg (peaks.getD i defaultPeak) (targets.getD j defaultTarget)
        = true := (Bool.and_eq_true ..).mp hc |>.1
    have hlt : |(peaks.getD i defaultPeak).mz - (targets.getD j defaultTarget).mz|
        < cfg.massTolerance := by simpa [mzConnected] using hmz
    exact absurd heq (ne_of_lt hlt)
  · intro hlt hrt
    refine mem_matchEdges.mpr ⟨hi, hj, ?_⟩
    have hmz : mzConnected cfg (peaks.getD i defaultPeak) (targets.getD j defaultTarget)
        = true := by simpa [mzConnected] using hlt
    exact (Bool.and_eq_true ..).mpr ⟨hmz, hrt⟩

/-- Witness for C4 at a concrete boundary input: the single `exBpeaks`
peak sits at distance exactly 0.002 = massTolerance from the `exBtargets`
target, so it is not mz-connected and the edge list is empty. -/
theorem c4_witness :
    (¬ mzConnected exBcfg (exBpeaks.getD 0 defaultPeak) (exBtargets.getD 0 defaultTarget)
        = true)
    ∧ (0, 0) ∉ matchEdges exBcfg exBpeaks exBtargets := by
  have hd : |(exBpeaks.getD 0 defaultPeak).mz - (exBtargets.getD 0 defaultTarget).mz|
      = exBcfg.massTolerance := by
    norm_num [exBpeaks, exBtargets, exBcfg, List.getD, abs_of_nonneg]
  have h := c4_mass_tolerance_strict exBcfg exBpeaks exBtargets 0 0
    (by decide) (by decide)
  refine ⟨?_, h.2.1 hd⟩
  intro hmz
  exact absurd ((h.1).mp hmz) (by rw [hd]; exact lt_irrefl _)

/-- C5: a target with null retention time is retime-connected to every
peak, so such a pair is an edge exactly when it is mz-connected. -/
theorem c5_null_retention_time_bypass (cfg : Config)
    (peaks : List ExperimentalPeak) (targets : List TargetCompound) (i j : Nat)
    (hi : i < peaks.length) (hj : j < targets.length)
    (hnull : (targets.getD j defaultTarget).retentionTime = none) :
    retimeConnected cfg (peaks.getD i defaultPeak) (targets.getD j defaultTarget) = true
    ∧ ((i, j) ∈ matchEdges cfg peaks targets
        ↔ mzConnected cfg (peaks.getD i defaultPeak) (targets.getD j defaultTarget)
            = true) := by
  have hrt : retimeConnected cfg (peaks.getD i defaultPeak)
      (targets.getD j defaultTarget) = true := by
    unfold retimeConnected
    rw [hnull]
  refine ⟨hrt, ?_, ?_⟩
  · intro hmem
    obtain ⟨-, -, hc⟩ := mem_matchEdges.mp hmem
    exact ((Bool.and_eq_true ..).mp hc).1
  · intro hmz
    exact mem_matchEdges.mpr ⟨hi, hj, (Bool.and_eq_true ..).mpr ⟨hmz, hrt⟩⟩

/-- Witness for C5 at a concrete input: the `ex1targets` target has null
retention time; peak 0 of `ex1peaks` is retime-connected to it and the
pair (0, 0) is an edge (it is mz-connected). -/
theorem c5_witness :
    retimeConnected ex1cfg (ex1peaks.getD 0 defaultPeak)
        (ex1targets.getD 0 defaultTarget) = true
    ∧ (0, 0) ∈ matchEdges ex1cfg ex1peaks ex1targets := by
  have h := c5_null_retention_time_bypass ex1cfg ex1peaks ex1targets 0 0
    (by decide) (by decide) rfl
  refine ⟨h.1, h.2.mpr ?_⟩
  norm_num [mzConnected, ex1cfg, ex1peaks, ex1targets, List.getD, abs_lt,
    defaultPeak, defaultTarget]

/-- C8: the matching-plus-aggregation computation is a deterministic
function of the peak table, the target table and the configuration: equal
inputs produce equal output tables (values and row order). -/
theorem c8_determinism (cfg₁ cfg₂ : Config)
    (peaks₁ peaks₂ : List ExperimentalPeak)
    (targets₁ targets₂ : List TargetCompound)
    (hc : cfg₁ = cfg₂) (hp : peaks₁ = peaks₂) (ht : targets₁ = targets₂) :
    outputRows cfg₁ peaks₁ targets₁ = outputRows cfg₂ peaks₂ targets₂ := by
  rw [hc, hp, ht]

/-- Witness for C8 at a concrete input. -/
theorem c8_witness :
    outputRows ex1cfg ex1peaks ex1targets = outputRows ex1cfg ex1peaks ex1targets :=
  c8_determinism ex1cfg ex1cfg ex1peaks ex1peaks ex1targets ex1targets rfl rfl rfl

/-- C10: under the CLI `generate` action the two tolerance options are
passed with their roles swapped: matching uses `--time-tolerance` as the
mass window, and a target without its own retention-time tolerance gets
`--mass-tolerance` as its retention-time window. -/
theorem c10_cli_tolerances_swapped (args : CliArgs)
    (peaks : List ExperimentalPeak) (targets : List TargetCompound)
    (p : ExperimentalPeak) (t : TargetCompound) :
    main_generate args peaks targets = outputRows (generateConfig args) peaks targets
    ∧ mzConnected (generateConfig args) p t = decide (|p.mz - t.mz| < args.time_tolerance)
    ∧ (t.retentionTimeTolerance = none
        → retimeTolerance (generateConfig args) t = args.mass_tolerance) := by
  refine ⟨rfl, rfl, ?_⟩
  intro hnone
  unfold retimeTolerance generateConfig
  rw [hnone]
  rfl

/-- Witness for C10 at concrete arguments `--mass-tolerance 1/500`,
`--time-tolerance 1/2`: a peak a full 0.3 Da away from the target mass is
nevertheless mz-connected (the 1/2 time tolerance is used as the mass
window), and the target's default retention window is 1/500 (the mass
tolerance argument). -/
theorem c10_witness :
    mzConnected (generateConfig ⟨1/500, 1/2⟩) ⟨1003/10, 1, 5⟩ ⟨1, "A", 100, none, none⟩
        = true
    ∧ retimeTolerance (generateConfig ⟨1/500, 1/2⟩) ⟨1, "A", 100, none, none⟩ = 1/500 := by
  have h := c10_cli_tolerances_swapped ⟨1/500, 1/2⟩ [] [] ⟨1003/10, 1, 5⟩
    ⟨1, "A", 100, none, none⟩
  refine ⟨by rw [h.2.1]; simp only [decide_eq_true_eq]; norm_num [abs_lt], h.2.2 rfl⟩

/-- C1 (code bug): on `ex1peaks`/`ex1targets` (peaks (100.000, 10) and
(100.004, 30) both matched to the single target), the value the source
reports for m/z is the FIRST matched peak's mz, 100.000, not the
intensity-weighted average 100.003 over all matched peaks described by
the spec: the `[0]` in `peaks_ids` discards every peak after the first. -/
theorem c1_value_uses_first_peak_only :
    experimental_value_of_target ex1peaks (matchEdges ex1cfg ex1peaks ex1targets)
        (·.mz) 0 = 100
    ∧ spec_weighted_average ex1peaks (matchEdges ex1cfg ex1peaks ex1targets)
        (·.mz) 0 = 100.003
    ∧ experimental_value_of_target ex1peaks (matchEdges ex1cfg ex1peaks ex1targets)
        (·.mz) 0
      ≠ spec_weighted_average ex1peaks (matchEdges ex1cfg ex1peaks ex1targets)
        (·.mz) 0 := by
  rw [ex1_edges]
  norm_num [experimental_value_of_target, average_over_peaks, target_intensities,
    peaks_ids, matchedPeaks, spec_weighted_average, ex1peaks, List.getD, defaultPeak]

/-- C2 (code bug): on the same input, the source's normalized total
intensity for the target is 250000 ppm — the FIRST matched peak's
intensity (10) over the grand total (40) — not the 1000000 ppm that the
spec's sum over all matched peaks (10 + 30 = 40) would give. -/
theorem c2_total_uses_first_peak_only :
    total_intensity_ppm ex1peaks (matchEdges ex1cfg ex1peaks ex1targets) 0 = 250000
    ∧ spec_total_intensity_ppm ex1peaks (matchEdges ex1cfg ex1peaks ex1targets) 0
        = 1000000
    ∧ total_intensity_ppm ex1peaks (matchEdges ex1cfg ex1peaks ex1targets) 0
        ≠ spec_total_intensity_ppm ex1peaks (matchEdges ex1cfg ex1peaks ex1targets) 0 := by
  rw [ex1_edges]
  norm_num [total_intensity_ppm, spec_total_intensity_ppm, target_intensities,
    peaks_ids, matchedPeaks, grandTotal, ex1peaks, List.getD, defaultPeak]

/-- C3 (counterexample): the claimed normalization invariant fails both
ways on the code.  On `ex3peaks`/`ex3targets` (one peak of intensity 10
matched to two targets) the grand total is positive yet the ppm sum is
2000000 > 1e6.  On `ex1peaks`/`ex1targets` every peak is matched to
exactly one target (edge first components are unique and every peak index
occurs), yet the ppm sum is 250000 ≠ 1e6. -/
theorem c3_counterexample :
    (0 < grandTotal ex3peaks
      ∧ sumTotalIntensityPpm ex3cfg ex3peaks ex3targets = 2000000
      ∧ ¬ sumTotalIntensityPpm ex3cfg ex3peaks ex3targets ≤ 1000000)
    ∧ (0 < grandTotal ex1peaks
      ∧ (∀ e₁ ∈ matchEdges ex1cfg ex1peaks ex1targets,
          ∀ e₂ ∈ matchEdges ex1cfg ex1peaks ex1targets, e₁.1 = e₂.1 → e₁.2 = e₂.2)
      ∧ (∀ p ∈ List.range ex1peaks.length,
          p ∈ (matchEdges ex1cfg ex1peaks ex1targets).map Prod.fst)
      ∧ sumTotalIntensityPpm ex1cfg ex1peaks ex1targets ≠ 1000000) := by
  refine ⟨⟨by norm_num [grandTotal, ex3peaks], ?_, ?_⟩,
    by norm_num [grandTotal, ex1peaks], by rw [ex1_edges]; decide,
    by rw [ex1_edges]; decide, ?_⟩
  · simp only [sumTotalIntensityPpm, ex3_edges]
    norm_num [identifiedTargets, matchedPeaks, total_intensity_ppm,
      target_intensities, peaks_ids, grandTotal, ex3peaks, ex3targets,
      List.range_succ, List.getD_cons_zero, List.getD_cons_succ, defaultPeak]
  · simp only [sumTotalIntensityPpm, ex3_edges]
    norm_num [identifiedTargets, matchedPeaks, total_intensity_ppm,
      target_intensities, peaks_ids, grandTotal, ex3peaks, ex3targets,
      List.range_succ, List.getD_cons_zero, List.getD_cons_succ, defaultPeak]
  · simp only [sumTotalIntensityPpm, ex1_edges]
    norm_num [identifiedTargets, matchedPeaks, total_intensity_ppm,
      target_intensities, peaks_ids, grandTotal, ex1peaks, ex1targets,
      List.range_succ, List.getD_cons_zero, List.getD_cons_succ, defaultPeak]

/-- C6 (code bug): on `ex6peaks` (every intensity zero) the grand total
intensity is zero, yet the pipeline performs the normalization and still
emits an output row — there is no `DegenerateInputError` (in the source's
float arithmetic the 0/0 division produces NaN in `Total intensity (ppm)`
and the subsequent `.astype(int)` cast is undefined). -/
theorem c6_no_degenerate_input_check :
    grandTotal ex6peaks = 0
    ∧ (outputRows ex6cfg ex6peaks ex6targets).length = 1 := by
  constructor
  · norm_num [grandTotal, ex6peaks]
  · have h : (outputRows ex6cfg ex6peaks ex6targets).length
        = (identifiedRows ex6cfg ex6peaks ex6targets).length :=
      (List.perm_insertionSort rowLe _).length_eq
    rw [h]
    simp only [identifiedRows, ex6_edges]
    simp [identifiedTargets, matchedPeaks, ex6targets, List.range_succ]

/-- C7 (counterexample): on `ex7peaks`/`ex7targets` the two identified
targets have exactly equal full-precision normalized intensities
(500000 ppm each), yet the emitted row order is target 1 before target 0:
ties are NOT broken by smaller input target index first (pandas reverses
an ascending argsort to sort descending, so tied rows come out in
descending index order). -/
theorem c7_counterexample :
    total_intensity_ppm ex7peaks (matchEdges ex7cfg ex7peaks ex7targets) 0
      = total_intensity_ppm ex7peaks (matchEdges ex7cfg ex7peaks ex7targets) 1
    ∧ (outputRows ex7cfg ex7peaks ex7targets).map (·.targetIndex) = [1, 0] := by
  have hg : grandTotal ex7peaks = 10 := by norm_num [grandTotal, ex7peaks]
  have hppm0 : total_intensity_ppm ex7peaks [(0, 0), (1, 1)] 0 = 500000 := by
    unfold total_intensity_ppm
    rw [hg, show target_intensities ex7peaks [(0, 0), (1, 1)] 0 = 5 from rfl]
    norm_num
  have hppm1 : total_intensity_ppm ex7peaks [(0, 0), (1, 1)] 1 = 500000 := by
    unfold total_intensity_ppm
    rw [hg, show target_intensities ex7peaks [(0, 0), (1, 1)] 1 = 5 from rfl]
    norm_num
  constructor
  · rw [ex7_edges, hppm0, hppm1]
  · have hIT : identifiedTargets [(0, 0), (1, 1)] ex7targets.length = [0, 1] := by decide
    have hrows : identifiedRows ex7cfg ex7peaks ex7targets
        = [mkRow ex7peaks ex7targets [(0, 0), (1, 1)] 0,
           mkRow ex7peaks ex7targets [(0, 0), (1, 1)] 1] := by
      simp only [identifiedRows, ex7_edges, hIT, List.map_cons, List.map_nil]
    have hkey0 : (mkRow ex7peaks ex7targets [(0, 0), (1, 1)] 0).totalIntensityPpm
        = 500000 := by
      show roundHalfToEven (total_intensity_ppm ex7peaks [(0, 0), (1, 1)] 0) = 500000
      rw [hppm0]
      norm_num [roundHalfToEven]
    have hkey1 : (mkRow ex7peaks ex7targets [(0, 0), (1, 1)] 1).totalIntensityPpm
        = 500000 := by
      show roundHalfToEven (total_intensity_ppm ex7peaks [(0, 0), (1, 1)] 1) = 500000
      rw [hppm1]
      norm_num [roundHalfToEven]
    have hnotle : ¬ rowLe (mkRow ex7peaks ex7targets [(0, 0), (1, 1)] 0)
        (mkRow ex7peaks ex7targets [(0, 0), (1, 1)] 1) := by
      unfold rowLe
      rw [hkey0, hkey1,
        show (mkRow ex7peaks ex7targets [(0, 0), (1, 1)] 1).targetIndex = 1 from rfl,
        show (mkRow ex7peaks ex7targets [(0, 0), (1, 1)] 0).targetIndex = 0 from rfl]
      simp
    simp only [outputRows, hrows, List.insertionSort, List.orderedInsert]
    rw [if_neg hnotle]
    rfl

/-- C7 (amended): the emitted rows are sorted by the rounded integer
`Total intensity (ppm)` column in descending (non-increasing) order.
The code sorts on the rounded column, not on full precision, and leaves
the relative order of rows with equal rounded values unspecified (pandas
reverses an unstable ascending argsort), so no tie-order clause is
asserted; this pairwise bound is independent of how `rowLe` refines the
tie order. -/
theorem c7_amended_sorted_by_rounded_ppm (cfg : Config)
    (peaks : List ExperimentalPeak) (targets : List TargetCompound) :
    (outputRows cfg peaks targets).Pairwise fun a b =>
      b.totalIntensityPpm ≤ a.totalIntensityPpm := by
  have hsorted : (outputRows cfg peaks targets).Pairwise rowLe :=
    List.sorted_insertionSort rowLe (identifiedRows cfg peaks targets)
  refine hsorted.imp ?_
  intro a b hle
  rcases hle with hlt | ⟨heq, -⟩
  · exact le_of_lt hlt
  · exact le_of_eq heq.symm

/-- C9: every output row corresponds to a target with at least one edge,
every target with at least one edge produces exactly one output row, and
each row's peak count is the number of distinct peaks matched to its
target (in particular at least one). -/
theorem c9_output_rows_identified_targets (cfg : Config)
    (peaks : List ExperimentalPeak) (targets : List TargetCompound)
    (t : Nat) (ht : t < targets.length) :
    ((∃ p, (p, t) ∈ matchEdges cfg peaks targets)
      ↔ (outputRows cfg peaks targets).countP (fun r => r.targetIndex == t) = 1)
    ∧ ∀ r ∈ outputRows cfg peaks targets,
        (matchedPeaks (matchEdges cfg peaks targets) r.targetIndex).Nodup
        ∧ r.peakCount = (matchedPeaks (matchEdges cfg peaks targets) r.targetIndex).length
        ∧ 1 ≤ r.peakCount := by
  have hperm : List.Perm (outputRows cfg peaks targets) (identifiedRows cfg peaks targets) :=
    List.perm_insertionSort rowLe (identifiedRows cfg peaks targets)
  have hcount : (outputRows cfg peaks targets).countP (fun r => r.targetIndex == t)
      = (identifiedTargets (matchEdges cfg peaks targets) targets.length).count t := by
    rw [hperm.countP_eq]
    unfold identifiedRows
    rw [List.countP_map]
    rfl
  have hex : (∃ p, (p, t) ∈ matchEdges cfg peaks targets)
      ↔ matchedPeaks (matchEdges cfg peaks targets) t ≠ [] := by
    constructor
    · rintro ⟨p, hp⟩ h
      have := mem_matchedPeaks.mpr hp
      rw [h] at this
      exact List.not_mem_nil p this
    · intro h
      cases hm : matchedPeaks (matchEdges cfg peaks targets) t with
      | nil => exact absurd hm h
      | cons a s => exact ⟨a, mem_matchedPeaks.mp (hm ▸ List.mem_cons_self a s)⟩
  constructor
  · rw [hcount, hex]
    constructor
    · intro hne
      exact List.count_eq_one_of_mem (nodup_identifiedTargets _ _)
        (mem_identifiedTargets.mpr ⟨ht, hne⟩)
    · intro hone
      by_contra hne
      rw [List.count_eq_zero.mpr
        (fun hmem => (mem_identifiedTargets.mp hmem).2 hne)] at hone
      exact Nat.zero_ne_one hone
  · intro r hr
    have hr' : r ∈ identifiedRows cfg peaks targets := hperm.mem_iff.mp hr
    unfold identifiedRows at hr'
    obtain ⟨s, hs, rfl⟩ := List.mem_map.mp hr'
    have hs' := mem_identifiedTargets.mp hs
    refine ⟨nodup_matchedPeaks (nodup_matchEdges cfg peaks targets) _, rfl, ?_⟩
    exact List.length_pos.mpr hs'.2

/-- Witness for C9 on `ex1`: target 0 has an edge, so it contributes
exactly one row, and each row has a positive peak count equal to the
number of distinct matched peaks. -/
theorem c9_witness :
    ((∃ p, (p, 0) ∈ matchEdges ex1cfg ex1peaks ex1targets)
      ↔ (outputRows ex1cfg ex1peaks ex1targets).countP (fun r => r.targetIndex == 0) = 1)
    ∧ ∀ r ∈ outputRows ex1cfg ex1peaks ex1targets,
        (matchedPeaks (matchEdges ex1cfg ex1peaks ex1targets) r.targetIndex).Nodup
        ∧ r.peakCount
            = (matchedPeaks (matchEdges ex1cfg ex1peaks ex1targets) r.targetIndex).length
        ∧ 1 ≤ r.peakCount :=
  c9_output_rows_identified_targets ex1cfg ex1peaks ex1targets 0 (by decide)

/-- Auxiliary: an in-range defaulted index read returns an element of the
list. -/
theorem getD_mem_of_lt {l : List ExperimentalPeak} {i : Nat}
    (h : i < l.length) : l.getD i defaultPeak ∈ l := by
  rw [List.getD_eq_getElem _ _ h]
  exact List.getElem_mem h

/-- C3 (amended): if all intensities are nonnegative, the grand total is
positive and every peak is matched to at most one target, then the sum of
the normalized total intensities over all identified targets is at most
1e6. -/
theorem c3_amended_ppm_sum_le (cfg : Config) (peaks : List ExperimentalPeak)
    (targets : List TargetCompound)
    (hnn : ∀ pk ∈ peaks, 0 ≤ pk.intensity)
    (hpos : 0 < grandTotal peaks)
    (huniq : ∀ e₁ ∈ matchEdges cfg peaks targets, ∀ e₂ ∈ matchEdges cfg peaks targets,
      e₁.1 = e₂.1 → e₁.2 = e₂.2) :
    sumTotalIntensityPpm cfg peaks targets ≤ 1000000 := by
  have hfp_mem : ∀ t ∈ identifiedTargets (matchEdges cfg peaks targets) targets.length,
      (peaks_ids (matchEdges cfg peaks targets) t, t) ∈ matchEdges cfg peaks targets :=
    fun t htl => peaks_ids_mem (mem_identifiedTargets.mp htl).2
  have hnodup_ix : ((identifiedTargets (matchEdges cfg peaks targets) targets.length).map
      (peaks_ids (matchEdges cfg peaks targets))).Nodup := by
    refine List.Nodup.map_on ?_ (nodup_identifiedTargets _ _)
    intro x hx y hy hxy
    exact huniq _ (hfp_mem x hx) _ (hfp_mem y hy) hxy
  have hsum_le : (((identifiedTargets (matchEdges cfg peaks targets) targets.length).map
        (peaks_ids (matchEdges cfg peaks targets))).map
        fun p => (peaks.getD p defaultPeak).intensity).sum ≤ grandTotal peaks := by
    have hsub : ((identifiedTargets (matchEdges cfg peaks targets) targets.length).map
        (peaks_ids (matchEdges cfg peaks targets))).toFinset ⊆ Finset.range peaks.length := by
      intro p hp
      rw [List.mem_toFinset] at hp
      rw [Finset.mem_range]
      obtain ⟨t, htl, rfl⟩ := List.mem_map.mp hp
      exact (mem_matchEdges.mp (hfp_mem t htl)).1
    calc (((identifiedTargets (matchEdges cfg peaks targets) targets.length).map
            (peaks_ids (matchEdges cfg peaks targets))).map
            fun p => (peaks.getD p defaultPeak).intensity).sum
        = ((identifiedTargets (matchEdges cfg peaks targets) targets.length).map
            (peaks_ids (matchEdges cfg peaks targets))).toFinset.sum
            (fun p => (peaks.getD p defaultPeak).intensity) :=
          (List.sum_toFinset _ hnodup_ix).symm
      _ ≤ (Finset.range peaks.length).sum
            (fun p => (peaks.getD p defaultPeak).intensity) := by
          refine Finset.sum_le_sum_of_subset_of_nonneg hsub ?_
          intro i hi _
          rw [Finset.mem_range] at hi
          exact hnn _ (getD_mem_of_lt hi)
      _ = grandTotal peaks := (grandTotal_eq_sum_range peaks).symm
  have key : ∀ xs : List Nat,
      (xs.map (total_intensity_ppm peaks (matchEdges cfg peaks targets))).sum
        = ((xs.map (peaks_ids (matchEdges cfg peaks targets))).map
            fun p => (peaks.getD p defaultPeak).intensity).sum
          / grandTotal peaks * 1000000 := by
    intro xs
    induction xs with
    | nil => simp
    | cons a s ih =>
        simp only [List.map_cons, List.sum_cons, ih]
        unfold total_intensity_ppm target_intensities
        ring
  have hsum_eq := key (identifiedTargets (matchEdges cfg peaks targets) targets.length)
  unfold sumTotalIntensityPpm
  rw [hsum_eq]
  have hdiv : (((identifiedTargets (matchEdges cfg peaks targets) targets.length).map
        (peaks_ids (matchEdges cfg peaks targets))).map
        fun p => (peaks.getD p defaultPeak).intensity).sum / grandTotal peaks ≤ 1 :=
    (div_le_one hpos).mpr hsum_le
  calc (((identifiedTargets (matchEdges cfg peaks targets) targets.length).map
          (peaks_ids (matchEdges cfg peaks targets))).map
          fun p => (peaks.getD p defaultPeak).intensity).sum / grandTotal peaks * 1000000
      ≤ 1 * 1000000 := by
        exact mul_le_mul_of_nonneg_right hdiv (by norm_num)
    _ = 1000000 := one_mul _

/-- Witness for C3 (amended) on `ex7`: nonnegative intensities, positive
grand total, each peak matched to one target; the bound applies. -/
theorem c3_amended_witness :
    sumTotalIntensityPpm ex7cfg ex7peaks ex7targets ≤ 1000000 := by
  refine c3_amended_ppm_sum_le ex7cfg ex7peaks ex7targets ?_ ?_ ?_
  · intro pk hpk
    simp only [ex7peaks, List.mem_cons, List.not_mem_nil, or_false] at hpk
    rcases hpk with h | h <;> rw [h] <;> norm_num
  · norm_num [grandTotal, ex7peaks]
  · rw [ex7_edges]
    decide

end Lcms
